import Mathlib

/-!
Verification development for the runtime core in src/ (object model in
pl_object.c, garbage collector and capacity management in pl_gc.c).
Definitions are shallow embeddings of the C functions; machine integers are
modelled as Int (the relevant arithmetic never overflows a 32-bit or 64-bit
int in the ranges allowed by the guards, which is noted where it matters).
C double values are modelled as Option Rat, with none playing the role of
NaN (the only NaN in play is the missing sentinel PL_DOUBLE_NA).
-/

/-- Error codes of the exception core (pl_error.h plus the codes referenced
by pl_object.c that come from a header revision not present under src/:
UNEXPECTED_NULL_POINTER, INCOMPATIBLE_LENGTH, ATTRIBUTE_NOT_FOUND). -/
inductive PlErr where
  | indexOutOfBound
  | allocFail
  | undefinedClass
  | invalidCapacity
  | invalidNullPointer
  | unexpectedNullPointer
  | invalidClass
  | invalidLength
  | invalidNA
  | incompatibleLength
  | attributeNotFound
  deriving DecidableEq, Repr

/-- PL_OBJECT_MAX_CAPACITY = 2 << (sizeof(int) * 7) = 2^29 (pl_object.h). -/
def maxCapacity : Int := 536870912

/-- PL_NUM_CLASS (pl_class.h). -/
def numClass : Int := 5

/-- PL_CLASS_CHAR. -/
def classChar : Int := 0

/-- PL_CLASS_INT. -/
def classInt : Int := 1

/-- PL_CLASS_LONG. -/
def classLong : Int := 2

/-- PL_CLASS_DOUBLE. -/
def classDouble : Int := 3

/-- PL_CLASS_LIST. -/
def classList : Int := 4

/-- PL_CHAR_NA = 0 (pl_object.h). -/
def charNA : Int := 0

/-- PL_INT_NA = INT_MAX (pl_object.h). -/
def intNA : Int := 2147483647

/-- PL_LONG_NA = LONG_MAX (pl_object.h). -/
def longNA : Int := 9223372036854775807

/-- CHAR_MIN (limits.h, signed 8-bit char). -/
def charMin : Int := -128

/-- CHAR_MAX (limits.h, signed 8-bit char). -/
def charMax : Int := 127

/-- INT_MIN (limits.h, 32-bit int). -/
def intMin : Int := -2147483648

/-- INT_MAX (limits.h, 32-bit int). -/
def intMax : Int := 2147483647

/-- LONG_MIN (limits.h, 64-bit long). -/
def longMin : Int := -9223372036854775808

/-- LONG_MAX (limits.h, 64-bit long). -/
def longMax : Int := 9223372036854775807

/-- The growth threshold computed in reserve_object (pl_gc.c line 172):
2 << (sizeof(int) * 4) = 2 << 16 = 131072 = 2^17 for a 32-bit int. -/
def reserveThreshold : Int := 131072

/-- The capacity-growth loop of reserve_object (pl_gc.c lines 171-179):
while final_capacity <= capacity, double it when it is below the threshold,
otherwise add the threshold.  The loop is rendered with an explicit fuel
argument so that it is structurally recursive and evaluates by decide; the
fuel passed by growFinal bounds the iteration count of the C loop, because
every iteration increases f by at least 1 when 1 ≤ f (the lemma
growGoAux_gt_capacity proves the loop exit condition is reached before the
fuel runs out). -/
def growGoAux (capacity : Int) : Nat → Int → Int
  | 0, f => f
  | fuel + 1, f =>
    if f ≤ capacity then
      if f < reserveThreshold then
        growGoAux capacity fuel (2 * f)
      else
        growGoAux capacity fuel (f + reserveThreshold)
    else f

/-- The final capacity computed by reserve_object for a requested capacity,
starting from final_capacity = 1 (pl_gc.c line 171). -/
def growFinal (capacity : Int) : Int :=
  growGoAux capacity capacity.toNat 1

/-- Capacity effect of resize_object (pl_gc.c lines 122-146) on an object
with the given capacity and length, assuming realloc succeeds: guard the
requested capacity, then return the new capacity and the (possibly
truncated) length. -/
def resizeCapLen (len newCap : Int) : Except PlErr (Int × Int) :=
  if ¬(0 < newCap ∧ newCap ≤ maxCapacity) then .error .invalidCapacity
  else .ok (newCap, if newCap < len then newCap else len)

/-- Capacity effect of reserve_object (pl_gc.c lines 158-183) on an object
with capacity cap and length len, assuming realloc succeeds: guard the
requested capacity (note the strict bound, capacity < PL_OBJECT_MAX_CAPACITY),
return unchanged if there is already enough memory, otherwise grow via the
doubling/additive loop and resize. -/
def reserveCapLen (cap len requested : Int) : Except PlErr (Int × Int) :=
  if ¬(0 < requested ∧ requested < maxCapacity) then .error .invalidCapacity
  else if requested ≤ cap then .ok (cap, len)
  else resizeCapLen len (growFinal requested)

/-- Modelled from the spec: the growth policy as §4.2 of the spec words it,
to compare with the source growth loop growGoAux.  The spec threshold is
2^(bits_per_int/2) = 2^16 = 65536: repeatedly double while below that
threshold, then grow additively by that same threshold (same fuel rendering
as growGoAux). -/
def specGrowGoAux (capacity : Int) : Nat → Int → Int
  | 0, f => f
  | fuel + 1, f =>
    if f ≤ capacity then
      if f < 65536 then
        specGrowGoAux capacity fuel (2 * f)
      else
        specGrowGoAux capacity fuel (f + 65536)
    else f

/-- Modelled from the spec: the final capacity under the growth policy as
the spec words it, starting from 1. -/
def specGrowFinal (capacity : Int) : Int :=
  specGrowGoAux capacity capacity.toNat 1

/-- Shape invariant of the growth loop: the running capacity is either a
power of two at most 2^17 = the threshold, or a positive multiple of the
threshold. -/
def goodCap (f : Int) : Prop :=
  (∃ k : ℕ, k ≤ 17 ∧ f = 2 ^ k) ∨ (∃ m : Int, 1 ≤ m ∧ f = m * reserveThreshold)

/-!
Object model: primitive vectors (pl_object.c).  A pl_object of a primitive
class is modelled by its class tag and the logical contents of its data
buffer.  char, int and long elements are Int values; double elements are
Option Rat with none standing for NaN = PL_DOUBLE_NA (the only NaN these
operations produce); list elements are Option Nat object references with
none standing for the NULL reference PL_LIST_NA.
-/

inductive PlVec where
  | vchar (xs : List Int)
  | vint (xs : List Int)
  | vlong (xs : List Int)
  | vdouble (xs : List (Option Rat))
  | vlist (xs : List (Option Nat))
  deriving DecidableEq, Repr

/-- The class tag of a vector (the class field of pl_object_struct). -/
def plClass (x : PlVec) : Int :=
  match x with
  | .vchar _ => classChar
  | .vint _ => classInt
  | .vlong _ => classLong
  | .vdouble _ => classDouble
  | .vlist _ => classList

/-- The length field of a vector. -/
def plvLen (x : PlVec) : Int :=
  match x with
  | .vchar xs => xs.length
  | .vint xs => xs.length
  | .vlong xs => xs.length
  | .vdouble xs => xs.length
  | .vlist xs => xs.length

/-- Junk values standing for the indeterminate contents of allocated but
not logically initialized (or out-of-buffer) memory, one per element kind.
The C code reads such memory in a few places (noted at each use); the
theorems quantify over these values where such a read can influence a
result. -/
structure JunkVals where
  jc : Int
  ji : Int
  jl : Int
  jd : Option Rat
  jo : Option Nat
  deriving DecidableEq, Repr

/-- Truncation toward zero, the C double-to-integer conversion. -/
def ratTrunc (q : Rat) : Int := if 0 ≤ q then ⌊q⌋ else -⌊-q⌋

/-- Element conversion of as_char on a char source (direct copy). -/
def charToCharElem (c : Int) : Int := c

/-- Element conversion of as_char on an int source (pl_object.c 1353-1361). -/
def intToCharElem (n : Int) : Int :=
  if n = intNA ∨ n < charMin ∨ n > charMax then charNA else n

/-- Element conversion of as_char on a long source (pl_object.c 1363-1371). -/
def longToCharElem (n : Int) : Int :=
  if n = longNA ∨ n < charMin ∨ n > charMax then charNA else n

/-- Element conversion of as_char on a double source (pl_object.c 1373-1381). -/
def doubleToCharElem (d : Option Rat) : Int :=
  match d with
  | none => charNA
  | some q => if q < (charMin : Rat) ∨ q > (charMax : Rat) then charNA else ratTrunc q

/-- Element conversion of as_int on a char source (pl_object.c 1409-1413). -/
def charToIntElem (c : Int) : Int := if c = charNA then intNA else c

/-- Element conversion of as_int on an int source (direct copy). -/
def intToIntElem (n : Int) : Int := n

/-- Element conversion of as_int on a long source (pl_object.c 1421-1429). -/
def longToIntElem (n : Int) : Int :=
  if n = longNA ∨ n < intMin ∨ n > intMax then intNA else n

/-- Element conversion of as_int on a double source (pl_object.c 1431-1439). -/
def doubleToIntElem (d : Option Rat) : Int :=
  match d with
  | none => intNA
  | some q => if q < (intMin : Rat) ∨ q > (intMax : Rat) then intNA else ratTrunc q

/-- Element conversion of as_long on a char source (pl_object.c 1467-1471). -/
def charToLongElem (c : Int) : Int := if c = charNA then longNA else c

/-- Element conversion of as_long on an int source (pl_object.c 1473-1477). -/
def intToLongElem (n : Int) : Int := if n = intNA then longNA else n

/-- Element conversion of as_long on a long source (direct copy). -/
def longToLongElem (n : Int) : Int := n

/-- Element conversion of as_long on a double source (pl_object.c 1485-1493). -/
def doubleToLongElem (d : Option Rat) : Int :=
  match d with
  | none => longNA
  | some q => if q < (longMin : Rat) ∨ q > (longMax : Rat) then longNA else ratTrunc q

/-- Element conversion of as_double on a char source (pl_object.c 1522-1526). -/
def charToDoubleElem (c : Int) : Option Rat := if c = charNA then none else some c

/-- Element conversion of as_double on an int source (pl_object.c 1528-1532). -/
def intToDoubleElem (n : Int) : Option Rat := if n = intNA then none else some n

/-- Element conversion of as_double on a long source (pl_object.c 1534-1538);
the model keeps the value exact, while the C double may round magnitudes
beyond 2^53 (no claim depends on such values). -/
def longToDoubleElem (n : Int) : Option Rat := if n = longNA then none else some n

/-- Element conversion of as_double on a double source (direct copy). -/
def doubleToDoubleElem (d : Option Rat) : Option Rat := d

/-- as_char (pl_object.c 1338-1393): allocate a char vector of the source
length (INVALID_CAPACITY when the length is outside (0, MAX_CAPACITY]),
then convert elementwise; a list source raises INVALID_CLASS. -/
def as_char (x : PlVec) : Except PlErr PlVec :=
  if ¬(0 < plvLen x ∧ plvLen x ≤ maxCapacity) then .error .invalidCapacity
  else
    match x with
    | .vchar xs => .ok (.vchar (xs.map charToCharElem))
    | .vint xs => .ok (.vchar (xs.map intToCharElem))
    | .vlong xs => .ok (.vchar (xs.map longToCharElem))
    | .vdouble xs => .ok (.vchar (xs.map doubleToCharElem))
    | .vlist _ => .error .invalidClass

/-- as_int (pl_object.c 1399-1451). -/
def as_int (x : PlVec) : Except PlErr PlVec :=
  if ¬(0 < plvLen x ∧ plvLen x ≤ maxCapacity) then .error .invalidCapacity
  else
    match x with
    | .vchar xs => .ok (.vint (xs.map charToIntElem))
    | .vint xs => .ok (.vint (xs.map intToIntElem))
    | .vlong xs => .ok (.vint (xs.map longToIntElem))
    | .vdouble xs => .ok (.vint (xs.map doubleToIntElem))
    | .vlist _ => .error .invalidClass

/-- as_long (pl_object.c 1457-1505). -/
def as_long (x : PlVec) : Except PlErr PlVec :=
  if ¬(0 < plvLen x ∧ plvLen x ≤ maxCapacity) then .error .invalidCapacity
  else
    match x with
    | .vchar xs => .ok (.vlong (xs.map charToLongElem))
    | .vint xs => .ok (.vlong (xs.map intToLongElem))
    | .vlong xs => .ok (.vlong (xs.map longToLongElem))
    | .vdouble xs => .ok (.vlong (xs.map doubleToLongElem))
    | .vlist _ => .error .invalidClass

/-- as_double (pl_object.c 1512-1556). -/
def as_double (x : PlVec) : Except PlErr PlVec :=
  if ¬(0 < plvLen x ∧ plvLen x ≤ maxCapacity) then .error .invalidCapacity
  else
    match x with
    | .vchar xs => .ok (.vdouble (xs.map charToDoubleElem))
    | .vint xs => .ok (.vdouble (xs.map intToDoubleElem))
    | .vlong xs => .ok (.vdouble (xs.map longToDoubleElem))
    | .vdouble xs => .ok (.vdouble (xs.map doubleToDoubleElem))
    | .vlist _ => .error .invalidClass

/-- copy (pl_object.c 978-987): a shallow, attribute-dropping duplicate.
It allocates with capacity equal to x.length, so the allocator guard
rejects a zero-length source with INVALID_CAPACITY.  The duplicate has the
same class and logical contents, which at this level of modelling is x
itself (attributes are not part of PlVec). -/
def copy (x : PlVec) : Except PlErr PlVec :=
  if ¬(0 < plvLen x ∧ plvLen x ≤ maxCapacity) then .error .invalidCapacity
  else .ok x

/-- primitive_extract_char (pl_object.c 416-430): class check, then a
missing index returns the class sentinel before any bound check. -/
def primitive_extract_char (x : PlVec) (index : Int) : Except PlErr Int :=
  match x with
  | .vchar xs =>
      if index = intNA then .ok charNA
      else if ¬(0 ≤ index ∧ index ≤ (xs.length : Int) - 1) then .error .indexOutOfBound
      else .ok (xs.getD index.toNat 0)
  | _ => .error .invalidClass

/-- primitive_extract_int (pl_object.c 416-432). -/
def primitive_extract_int (x : PlVec) (index : Int) : Except PlErr Int :=
  match x with
  | .vint xs =>
      if index = intNA then .ok intNA
      else if ¬(0 ≤ index ∧ index ≤ (xs.length : Int) - 1) then .error .indexOutOfBound
      else .ok (xs.getD index.toNat 0)
  | _ => .error .invalidClass

/-- primitive_extract_long (pl_object.c 416-434). -/
def primitive_extract_long (x : PlVec) (index : Int) : Except PlErr Int :=
  match x with
  | .vlong xs =>
      if index = intNA then .ok longNA
      else if ¬(0 ≤ index ∧ index ≤ (xs.length : Int) - 1) then .error .indexOutOfBound
      else .ok (xs.getD index.toNat 0)
  | _ => .error .invalidClass

/-- primitive_extract_double (pl_object.c 416-436). -/
def primitive_extract_double (x : PlVec) (index : Int) : Except PlErr (Option Rat) :=
  match x with
  | .vdouble xs =>
      if index = intNA then .ok none
      else if ¬(0 ≤ index ∧ index ≤ (xs.length : Int) - 1) then .error .indexOutOfBound
      else .ok (xs.getD index.toNat none)
  | _ => .error .invalidClass

/-- primitive_extract_object (pl_object.c 438-447): a missing index returns
the NULL reference, the list-class missing sentinel. -/
def primitive_extract_object (x : PlVec) (index : Int) : Except PlErr (Option Nat) :=
  match x with
  | .vlist xs =>
      if index = intNA then .ok none
      else if ¬(0 ≤ index ∧ index ≤ (xs.length : Int) - 1) then .error .indexOutOfBound
      else .ok (xs.getD index.toNat none)
  | _ => .error .invalidClass

/-- The elementwise comparison loop of equal (pl_object.c 1015-1112), one
switch case, generic in the element kind.  For each i below the length of
the first operand: when the second operand has more than one element,
compare element i with element i; otherwise compare element i with element
0 of the second operand, but NA-test element i of the second operand, which
for i at least 1 is a read past the logical contents of a length-one
operand; that read is modelled by the junk value. -/
def equalArr (isna : α → Bool) (beq : α → α → Bool) (junk : α) (xs ys : List α) : List Int :=
  (List.range xs.length).map fun i =>
    let xi := xs.getD i junk
    if (ys.length : Int) > 1 then
      let yi := ys.getD i junk
      if isna xi || isna yi then intNA else if beq xi yi then 1 else 0
    else
      let yi := ys.getD i junk
      if isna xi || isna yi then intNA else if beq xi (ys.getD 0 junk) then 1 else 0

/-- equal (pl_object.c 993-1115): same-type check; the length swap meant to
make x the longer operand (lines 999-1003) executes tmp = x; x = y; y = x,
so when x is shorter BOTH variables end up holding the original y (tmp is
never read back); then the length-compatibility check, the result
allocation, and the per-class comparison loop. -/
def equal (j : JunkVals) (x y : PlVec) : Except PlErr PlVec :=
  if plClass x ≠ plClass y then .error .invalidClass
  else
    let p := if plvLen x < plvLen y then (y, y) else (x, y)
    let x := p.1
    let y := p.2
    if ¬(plvLen x = plvLen y ∨ plvLen y = 1) then .error .incompatibleLength
    else
      let cap := if plvLen x = 0 then 1 else plvLen x
      if ¬(0 < cap ∧ cap ≤ maxCapacity) then .error .invalidCapacity
      else
        match x, y with
        | .vchar xs, .vchar ys =>
            .ok (.vint (equalArr (fun c => c = charNA) (fun a b => a = b) j.jc xs ys))
        | .vint xs, .vint ys =>
            .ok (.vint (equalArr (fun n => n = intNA) (fun a b => a = b) j.ji xs ys))
        | .vlong xs, .vlong ys =>
            .ok (.vint (equalArr (fun n => n = longNA) (fun a b => a = b) j.jl xs ys))
        | .vdouble xs, .vdouble ys =>
            .ok (.vint (equalArr (fun d => d = none)
              (fun a b => match a, b with
                | some qa, some qb => qa = qb
                | _, _ => false) j.jd xs ys))
        | .vlist xs, .vlist ys =>
            .ok (.vint (equalArr (fun r => r = none) (fun a b => a = b) j.jo xs ys))
        | _, _ => .error .invalidClass

/-- The bound-check loop of primitive_set_by_indices (pl_object.c 258-261):
every index below len is either the missing sentinel or within
[0, x.length - 1]. -/
def allIndicesInBound (xlen len : Int) (indices : List Int) : Prop :=
  ∀ i < len.toNat, indices.getD i 0 = intNA ∨
    (0 ≤ indices.getD i 0 ∧ indices.getD i 0 ≤ xlen - 1)

instance (xlen len : Int) (indices : List Int) :
    Decidable (allIndicesInBound xlen len indices) := by
  unfold allIndicesInBound
  infer_instance

/-- The write loop of primitive_set_by_indices, one switch case
(pl_object.c 266-305): for i = 0 .. len-1 in order, skip a missing index,
otherwise write element i of the source array at the index. -/
def setArr (data : List α) (len : Int) (indices : List Int) (src : List α)
    (junk : α) : List α :=
  (List.range len.toNat).foldl
    (fun d i =>
      let idx := indices.getD i 0
      if idx = intNA then d else d.set idx.toNat (src.getD i junk)) data

/-- primitive_set_by_indices (pl_object.c 246-306): guard the length, then
every index, before any element is written.  The junk values model source
reads past the logical source contents (the C reads src_array[i] for every
non-missing index regardless of the length of items, which the wrapper set
does not validate). -/
def primitive_set_by_indices (x : PlVec) (len : Int) (indices : List Int)
    (items : PlVec) (j : JunkVals) : Except PlErr PlVec :=
  if len = intNA then .error .invalidNA
  else if len = 0 then .ok x
  else if ¬0 < len then .error .invalidLength
  else if ¬allIndicesInBound (plvLen x) len indices then .error .indexOutOfBound
  else
    match x, items with
    | .vchar xs, .vchar ys => .ok (.vchar (setArr xs len indices ys j.jc))
    | .vint xs, .vint ys => .ok (.vint (setArr xs len indices ys j.ji))
    | .vlong xs, .vlong ys => .ok (.vlong (setArr xs len indices ys j.jl))
    | .vdouble xs, .vdouble ys => .ok (.vdouble (setArr xs len indices ys j.jd))
    | .vlist xs, .vlist ys => .ok (.vlist (setArr xs len indices ys j.jo))
    | _, _ => .ok x

/-- set (pl_object.c 790-798): null and class checks (indices being a
List Int models the int-vector check on indices), then
primitive_set_by_indices with the length of the index vector. -/
def setVec (x : PlVec) (indices : List Int) (items : PlVec) (j : JunkVals) :
    Except PlErr PlVec :=
  if plClass x ≠ plClass items then .error .invalidClass
  else primitive_set_by_indices x (indices.length : Int) indices items j

/-!
Attribute side-table (pl_object.c 1563-1666).  The attribute field of an
object is either absent or a 2-slot list holding a list of attribute-name
char vectors and a parallel list of attribute values.  Names are modelled
by their byte contents (List Int); values by object references (Option Nat,
none standing for the NULL reference).
-/

structure AttrTab where
  names : List (List Int)
  values : List (Option Nat)
  deriving DecidableEq, Repr

/-- The scan loop of primitive_index_attribute (pl_object.c 1579-1593).
For each stored name of matching length, the C declares int flag = 0 and
accumulates flag = flag && (byte comparison), then returns the index when
flag == 1.  Note the C source indexes the stored-names buffer with the
wrong element type (name_array is declared pl_object instead of
pl_object *), so the length field and bytes it actually reads are garbage;
the model reads the intended fields, and the result is insensitive to them
because the accumulator starts at 0 and can never become 1. -/
def attrIndexGo (names : List (List Int)) (given : List Int) (i : Int) : Int :=
  match names with
  | [] => -1
  | stored :: rest =>
      if stored.length = given.length then
        let flag := (List.range given.length).foldl
          (fun f j => f && decide (stored.getD j 0 = given.getD j 0)) false
        if flag then i else attrIndexGo rest given (i + 1)
      else attrIndexGo rest given (i + 1)

/-- primitive_index_attribute (pl_object.c 1563-1596): -1 when the object
has no attribute table, otherwise the scan loop from index 0. -/
def primitive_index_attribute (attr : Option AttrTab) (given : List Int) : Int :=
  match attr with
  | none => -1
  | some t => attrIndexGo t.names given 0

/-- has_attribute (pl_object.c 1598-1601): a length-one int vector holding
whether the index scan found the name. -/
def has_attribute (attr : Option AttrTab) (given : List Int) : PlVec :=
  .vint [if primitive_index_attribute attr given ≠ -1 then 1 else 0]

/-- get_attribute (pl_object.c 1603-1614): ATTRIBUTE_NOT_FOUND when the
scan fails, otherwise extract the stored value at the found index. -/
def get_attribute (attr : Option AttrTab) (given : List Int) :
    Except PlErr (Option Nat) :=
  let index := primitive_index_attribute attr given
  if index = -1 then .error .attributeNotFound
  else
    match attr with
    | none => .error .attributeNotFound
    | some t => .ok (t.values.getD index.toNat none)

/-- append (pl_object.c 893-901), generic in the element kind: null checks
on the list and the item, then the reserve guard on length + 1 (the reserve
guard is evaluated before its early return, so it applies even when no
growth is needed), then the write.  isNull models check_null_pointer on the
item; realloc is assumed to succeed at this layer. -/
def appendObj (xs : List α) (item : α) (isNull : α → Bool) :
    Except PlErr (List α) :=
  if isNull item then .error .unexpectedNullPointer
  else if ¬(0 < (xs.length : Int) + 1 ∧ (xs.length : Int) + 1 < maxCapacity) then
    .error .invalidCapacity
  else .ok (xs ++ [item])

/-- set_attribute (pl_object.c 1616-1656).  When the name is not found:
lazily create the side-table, then try appending the name and the value;
on failure, if the two lists have different lengths, truncate both to the
smaller length before rethrowing.  When the name is found: replace the
stored value (this branch is unreachable because the index scan never
succeeds, and the C source writes through the attributes pointer without
->data there).  The returned pair carries the error status and the
attribute state after the call, mirroring that the C throw does not undo
mutations. -/
def set_attribute (attr : Option AttrTab) (given : List Int)
    (item : Option Nat) : Except PlErr Unit × Option AttrTab :=
  let index := primitive_index_attribute attr given
  if index = -1 then
    let t := attr.getD ⟨[], []⟩
    match appendObj t.names given (fun _ => false) with
    | .error e => (.error e, some t)
    | .ok ns =>
        match appendObj t.values item (fun v => v = none) with
        | .error e =>
            if ns.length ≠ t.values.length then
              let smaller := min ns.length t.values.length
              (.error e, some ⟨ns.take smaller, t.values.take smaller⟩)
            else (.error e, some ⟨ns, t.values⟩)
        | .ok vs => (.ok (), some ⟨ns, vs⟩)
  else
    (.ok (), attr.map fun t => { t with values := t.values.set index.toNat item })

/-!
Garbage collector (pl_gc.c).  Objects live in a heap keyed by address
(Addr, a Nat; 0 plays the role of the NULL pointer and is never allocated).
The four global bookkeeping tables are list-class objects in C, created
without recording; they are modelled as Tab values (capacity plus the
logical contents of their data buffer) held in dedicated state fields,
since nothing in the modelled scenarios takes their address.  malloc and
realloc outcomes are modelled by an oracle list of Bools consumed one per
allocation attempt (an empty oracle means every allocation succeeds).
Throws keep the state reached so far, mirroring longjmp.
-/

/-- A C object pointer. -/
abbrev Addr := Nat

/-- A bookkeeping table: a list-class object holding sorted addresses. -/
structure Tab where
  capacity : Int
  data : List Addr
  deriving DecidableEq, Repr

/-- A heap object: pl_object_struct plus its data buffer.  slots holds the
object-reference payload read by the collector for list-class objects
(none is the NULL reference); payloads of other classes are never read by
the collector and are left as none slots. -/
structure GObj where
  cls : Int
  capacity : Int
  len : Int
  attrRef : Option Addr
  slots : List (Option Addr)
  deriving DecidableEq, Repr

/-- The collector state: the four global tables (pl_gc.c lines 13-16), the
heap of malloc-allocated objects, the next fresh address, and the
allocation oracle. -/
structure GCState where
  table : Option Tab
  directly : Option Tab
  reachable : Option Tab
  unordered : Option Tab
  heap : List (Addr × GObj)
  nextAddr : Addr
  oracle : List Bool
  deriving DecidableEq, Repr

/-- The collector computation monad: state plus exceptions, where a throw
keeps the state mutated so far (longjmp does not roll back). -/
def GcM (α : Type) : Type := GCState → Except PlErr α × GCState

instance : Monad GcM where
  pure a := fun s => (.ok a, s)
  bind m f := fun s =>
    match m s with
    | (.ok a, s2) => f a s2
    | (.error e, s2) => (.error e, s2)

/-- pl_error_throw: record the error and transfer control. -/
def gthrow {α : Type} (e : PlErr) : GcM α := fun s => (.error e, s)

/-- pl_error_try / pl_error_catch: run the body; on error run the handler
from the state the body reached. -/
def gcatch {α : Type} (m : GcM α) (h : PlErr → GcM α) : GcM α := fun s =>
  match m s with
  | (.ok a, s2) => (.ok a, s2)
  | (.error e, s2) => h e s2

def getState : GcM GCState := fun s => (.ok s, s)

def setState (s2 : GCState) : GcM Unit := fun _ => (.ok (), s2)

/-- Consume the next allocation outcome from the oracle (true = the
malloc or realloc call succeeds). -/
def nextAlloc : GcM Bool := fun s =>
  (.ok (s.oracle.headD true), { s with oracle := s.oracle.tail })

/-- Look an address up in the heap. -/
def heapLookup (h : List (Addr × GObj)) (a : Addr) : Option GObj :=
  (h.find? (fun p => p.1 = a)).map (fun p => p.2)

/-- The four global table slots. -/
inductive TabField where
  | table
  | directly
  | reachable
  | unordered
  deriving DecidableEq, Repr

def getTab (fld : TabField) (s : GCState) : Option Tab :=
  match fld with
  | .table => s.table
  | .directly => s.directly
  | .reachable => s.reachable
  | .unordered => s.unordered

def setTabField (fld : TabField) (t : Tab) (s : GCState) : GCState :=
  match fld with
  | .table => { s with table := some t }
  | .directly => { s with directly := some t }
  | .reachable => { s with reachable := some t }
  | .unordered => { s with unordered := some t }

/-- Read a global table; the default is never reached in the modelled
paths because every operation initializes the tables it uses first. -/
def readTab (fld : TabField) : GcM Tab := do
  let s ← getState
  pure ((getTab fld s).getD ⟨8, []⟩)

def writeTab (fld : TabField) (t : Tab) : GcM Unit := do
  let s ← getState
  setState (setTabField fld t s)

/-- init_table (pl_gc.c 213-218): allocate a capacity-8 list-class object
for the table if it is still NULL.  The allocation goes through
new_object_without_recording, hence two malloc attempts. -/
def init_table (fld : TabField) : GcM Tab := do
  let s ← getState
  match getTab fld s with
  | some t => pure t
  | none => do
      let okObj ← nextAlloc
      let okData ← nextAlloc
      if ¬(okObj ∧ okData) then gthrow .allocFail
      else do
        let t : Tab := ⟨8, []⟩
        writeTab fld t
        pure t

/-- The binary-search loop of table_find_object (pl_gc.c 228-251),
rendered with fuel bounding the iteration count; the interval [head, tail]
shrinks every iteration, so a fuel of tail + 1 - head at the call site is
enough, and when the fuel runs out the loop exit value -1 is returned. -/
def tableFindGo (data : List Addr) (x : Addr) : Nat → Int → Int → Int
  | 0, _, _ => -1
  | fuel + 1, head, tail =>
    if head ≤ tail then
      let current := head / 2 + tail / 2 +
        (if tail % 2 = 1 ∧ head % 2 = 1 then 1 else 0)
      let v := data.getD current.toNat 0
      if v = x then current
      else if v < x then tableFindGo data x fuel (current + 1) tail
      else tableFindGo data x fuel head (current - 1)
    else -1

/-- table_find_object (pl_gc.c 228-251): -1 when not found, otherwise the
index of the address in the sorted table. -/
def table_find_object (t : Tab) (x : Addr) : Int :=
  tableFindGo t.data x t.data.length 0 ((t.data.length : Int) - 1)

/-- Capacity change of resize_object (pl_gc.c 122-146) applied to a
bookkeeping table: guard the capacity, attempt the realloc, then install
the new capacity, truncating the logical contents if the new capacity is
below the current length. -/
def resizeTab (t : Tab) (capacity : Int) : GcM Tab := do
  if ¬(0 < capacity ∧ capacity ≤ maxCapacity) then gthrow .invalidCapacity
  else do
    let okR ← nextAlloc
    if ¬okR then gthrow .allocFail
    else pure { capacity := capacity, data := t.data.take capacity.toNat }

/-- reserve_object (pl_gc.c 158-183) applied to a bookkeeping table. -/
def reserveTab (t : Tab) (capacity : Int) : GcM Tab := do
  if ¬(0 < capacity ∧ capacity < maxCapacity) then gthrow .invalidCapacity
  else if capacity ≤ t.capacity then pure t
  else resizeTab t (growFinal capacity)

/-- The insertion-point search loop of table_record_object (pl_gc.c
284-295), same fuel rendering as the find loop; returns head when the
loop exits. -/
def tableInsertGo (data : List Addr) (x : Addr) : Nat → Int → Int → Int
  | 0, head, _ => head
  | fuel + 1, head, tail =>
    if head ≤ tail then
      let current := head / 2 + tail / 2 +
        (if tail % 2 = 1 ∧ head % 2 = 1 then 1 else 0)
      if data.getD current.toNat 0 < x then tableInsertGo data x fuel (current + 1) tail
      else tableInsertGo data x fuel head (current - 1)
    else head

/-- The memmove shift-and-insert of table_record_object (pl_gc.c 303-307):
insert at a position that the search loop guarantees is at most the
length (the out-of-range equation is unreachable). -/
def listInsertAt {α : Type} : List α → Nat → α → List α
  | l, 0, a => a :: l
  | [], _ + 1, a => [a]
  | b :: t, n + 1, a => b :: listInsertAt t n a

/-- table_record_object (pl_gc.c 261-311): no-op when the address is
already recorded; otherwise reserve one more slot and insert the address
at its sorted position (special-casing the empty table and the append
position). -/
def table_record_object (t : Tab) (x : Addr) : GcM Tab := do
  if x = 0 then gthrow .invalidNullPointer
  else if table_find_object t x ≠ -1 then pure t
  else do
    let t2 ← reserveTab t ((t.data.length : Int) + 1)
    if t2.data.length = 0 then pure { t2 with data := [x] }
    else
      let head := tableInsertGo t2.data x t2.data.length 0 ((t2.data.length : Int) - 1)
      if head = (t2.data.length : Int) then pure { t2 with data := t2.data ++ [x] }
      else pure { t2 with data := listInsertAt t2.data head.toNat x }

/-- table_untrack_object (pl_gc.c 321-345): no-op when absent; drop the
last element when the address is last, otherwise shift the tail left. -/
def table_untrack_object (t : Tab) (x : Addr) : GcM Tab := do
  if x = 0 then gthrow .invalidNullPointer
  else
    let index := table_find_object t x
    if index = -1 then pure t
    else if index = (t.data.length : Int) - 1 then pure { t with data := t.data.dropLast }
    else pure { t with data := t.data.eraseIdx index.toNat }

/-- new_object_without_recording (pl_gc.c 39-81): class and capacity
guards, then the two mallocs inside a try whose catch frees whatever was
allocated and rethrows ALLOC_FAIL; modelled by inserting the object only
when both allocations succeed (the freed partial allocations leave no
trace).  The fresh object has length 0 and a capacity-sized buffer. -/
def new_object_without_recording (cls capacity : Int) : GcM Addr := do
  if ¬(0 ≤ cls ∧ cls < numClass) then gthrow .undefinedClass
  else if ¬(0 < capacity ∧ capacity ≤ maxCapacity) then gthrow .invalidCapacity
  else do
    let okObj ← nextAlloc
    let okData ← nextAlloc
    if ¬(okObj ∧ okData) then gthrow .allocFail
    else do
      let s ← getState
      let a := s.nextAddr
      setState { s with
        heap := (a, ⟨cls, capacity, 0, none, List.replicate capacity.toNat none⟩) :: s.heap,
        nextAddr := a + 1 }
      pure a

/-- delete_object (pl_gc.c 193-200): free the data buffer and the object. -/
def delete_object (a : Addr) : GcM Unit := do
  if a = 0 then gthrow .invalidNullPointer
  else do
    let s ← getState
    setState { s with heap := s.heap.filter (fun p => decide (p.1 ≠ a)) }

/-- new_object (pl_gc.c 89-110): init the global table, create the object,
then record it inside a try; on failure delete the object and rethrow. -/
def new_object (cls capacity : Int) : GcM Addr := do
  let t ← init_table .table
  let a ← new_object_without_recording cls capacity
  gcatch
    (do
      let t2 ← table_record_object t a
      writeTab .table t2)
    (fun e => do
      delete_object a
      gthrow e)
  pure a

/-- directly_reachable (pl_gc.c 354-360). -/
def directly_reachable (a : Addr) : GcM Unit := do
  let t ← init_table .directly
  let t2 ← table_record_object t a
  writeTab .directly t2

/-- directly_unreachable (pl_gc.c 369-375). -/
def directly_unreachable (a : Addr) : GcM Unit := do
  let t ← init_table .directly
  let t2 ← table_untrack_object t a
  writeTab .directly t2

/-- The duplicated record-and-enqueue block of update_reachable (pl_gc.c
438-455 for list elements, 461-479 for the attribute): record the
reference in the reachable table, and if it is new, append it to the
unordered work queue. -/
def visit_ref (a : Addr) : GcM Unit := do
  let reach ← readTab .reachable
  let beforeLen := reach.data.length
  let reach2 ← table_record_object reach a
  writeTab .reachable reach2
  if beforeLen < reach2.data.length then do
    let un ← readTab .unordered
    let un2 ← reserveTab un ((un.data.length : Int) + 1)
    writeTab .unordered { un2 with data := un2.data ++ [a] }
  else pure ()

/-- The BFS loop of update_reachable (pl_gc.c 422-485), with fuel bounding
the iteration count: every iteration dequeues one index, every enqueued
address was newly recorded in the deduplicating reachable table, so the
queue length never exceeds the seed count plus the number of distinct
references stored in heap objects; the fuel passed by update_reachable is
at least that.  Dereferencing a queue entry that is not a live object is
undefined behavior in C and surfaces as INVALID_NULL_POINTER here. -/
def bfs_loop : Nat → Int → Int → GcM Unit
  | 0, _, _ => pure ()
  | fuel + 1, headIndex, tailIndex => do
    if headIndex ≤ tailIndex then do
      let un ← readTab .unordered
      let headItem := un.data.getD headIndex.toNat 0
      let s ← getState
      match heapLookup s.heap headItem with
      | none => gthrow .invalidNullPointer
      | some obj => do
          if ¬(0 ≤ obj.cls ∧ obj.cls < numClass) then gthrow .undefinedClass
          else do
            if obj.cls = classList then
              (List.range obj.len.toNat).forM fun i =>
                match obj.slots.getD i none with
                | none => pure ()
                | some r => visit_ref r
            else pure ()
            match obj.attrRef with
            | none => pure ()
            | some ar => visit_ref ar
            let un2 ← readTab .unordered
            bfs_loop fuel (headIndex + 1) ((un2.data.length : Int) - 1)
    else pure ()

/-- The BFS fuel bound: seeds plus one entry per reference slot (elements
and attribute) of every heap object, plus one. -/
def bfsFuel (s : GCState) (seeds : Nat) : Nat :=
  seeds + (s.heap.map (fun p => p.2.slots.length + 1)).sum + 1

/-- update_reachable (pl_gc.c 383-486): init the three tables; do nothing
when there are no directly reachable objects (the early return that leaves
the previous reachable contents in place); otherwise resize reachable and
the unordered queue to the root count, copy the roots into both, and run
the BFS. -/
def update_reachable : GcM Unit := do
  let _ ← init_table .reachable
  let _ ← init_table .unordered
  let _ ← init_table .directly
  let dr ← readTab .directly
  if dr.data.length = 0 then pure ()
  else do
    let re ← readTab .reachable
    let re2 ← resizeTab re
      (if (dr.data.length : Int) = 0 then 1 else (dr.data.length : Int))
    writeTab .reachable { re2 with data := dr.data }
    let un ← readTab .unordered
    let un2 ← resizeTab un
      (if (dr.data.length : Int) = 0 then 1 else (dr.data.length : Int))
    writeTab .unordered { un2 with data := dr.data }
    let s ← getState
    bfs_loop (bfsFuel s dr.data.length) 0 ((dr.data.length : Int) - 1)

/-- garbage_collect (pl_gc.c 494-520): init the tables, update the
reachable set, delete every tracked object absent from it, replace the
table contents with the reachable set, and shrink the table. -/
def garbage_collect : GcM Unit := do
  let _ ← init_table .table
  let _ ← init_table .directly
  let _ ← init_table .reachable
  update_reachable
  let t ← readTab .table
  let re ← readTab .reachable
  t.data.forM fun a => do
    if table_find_object re a = -1 then delete_object a
    else pure ()
  let re2 ← readTab .reachable
  let t2 ← readTab .table
  writeTab .table { t2 with data := re2.data }
  let t3 ← readTab .table
  let t4 ← resizeTab t3
    (if (t3.data.length : Int) = 0 then 1 else (t3.data.length : Int))
  writeTab .table t4

/-- The int vector A of the C1 scenario: no outgoing references. -/
def c1A : GObj := ⟨classInt, 1, 1, none, [none]⟩

/-- The list L = list(A) of the C1 scenario: one slot referring to A. -/
def c1L : GObj := ⟨classList, 1, 1, none, [some 10]⟩

/-- The C1 scenario start state: A at address 10 and L at address 20, both
recorded in the allocation table, L pinned as the only root, the other
bookkeeping tables initialized and empty, every allocation succeeding. -/
def c1State : GCState :=
  { table := some ⟨8, [10, 20]⟩
    directly := some ⟨8, [20]⟩
    reachable := some ⟨8, []⟩
    unordered := some ⟨8, []⟩
    heap := [(10, c1A), (20, c1L)]
    nextAddr := 30
    oracle := [] }

/-- The state after the first collect (L pinned). -/
def c1AfterFirst : GCState := (garbage_collect c1State).2

/-- The state after unpinning L. -/
def c1AfterUnpin : GCState := (directly_unreachable 20 c1AfterFirst).2

/-- The state after the second collect (no roots pinned). -/
def c1Final : GCState := (garbage_collect c1AfterUnpin).2

/-- Fuel adequacy and loop postcondition: whenever the remaining fuel is at
least the distance to the loop bound, the loop exits with a value strictly
greater than the requested capacity. -/
theorem growGoAux_gt_capacity (capacity : Int) :
    ∀ (fuel : Nat) (f : Int), 1 ≤ f → capacity + 1 - f ≤ fuel →
      capacity < growGoAux capacity fuel f := by
  intro fuel
  induction fuel with
  | zero =>
      intro f hf hle
      simp only [growGoAux]
      omega
  | succ n ih =>
      intro f hf hle
      simp only [growGoAux]
      by_cases hc : f ≤ capacity
      · simp only [hc, if_true]
        by_cases ht : f < reserveThreshold
        · simp only [ht, if_true]
          exact ih (2 * f) (by omega) (by omega)
        · simp only [ht, if_false]
          exact ih (f + reserveThreshold) (by simp only [reserveThreshold]; omega)
            (by simp only [reserveThreshold] at *; omega)
      · simp only [hc, if_false]
        omega

theorem goodCap_one : goodCap 1 :=
  Or.inl ⟨0, by norm_num⟩

/-- The growth loop preserves the shape invariant and, for a requested
capacity below MAX_CAPACITY, never exceeds MAX_CAPACITY. -/
theorem growGoAux_good_le (capacity : Int) (hcap : capacity < maxCapacity) :
    ∀ (fuel : Nat) (f : Int), 1 ≤ f → goodCap f → f ≤ maxCapacity →
      goodCap (growGoAux capacity fuel f) ∧ growGoAux capacity fuel f ≤ maxCapacity := by
  intro fuel
  induction fuel with
  | zero =>
      intro f _ hg hle
      simpa only [growGoAux] using ⟨hg, hle⟩
  | succ n ih =>
      intro f hf hg hle
      simp only [growGoAux]
      by_cases hc : f ≤ capacity
      · simp only [hc, if_true]
        by_cases ht : f < reserveThreshold
        · simp only [ht, if_true]
          -- Doubling branch: f is a power of two strictly below 2^17.
          rcases hg with ⟨k, hk, rfl⟩ | ⟨m, hm, rfl⟩
          · have hklt : k < 17 := by
              by_contra hker
              have h17 : (17 : ℕ) ≤ k := by omega
              have : (2 : Int) ^ 17 ≤ 2 ^ k :=
                pow_le_pow_right₀ (by norm_num) h17
              simp only [reserveThreshold] at ht
              norm_num at this
              omega
            refine ih (2 * 2 ^ k)
              (by have hpos : (0 : Int) < 2 ^ k := pow_pos (by norm_num) k; omega)
              (Or.inl ⟨k + 1, by omega, by ring⟩) ?_
            have : (2 : Int) ^ (k + 1) ≤ 2 ^ 17 := pow_le_pow_right₀ (by norm_num) (by omega)
            simp only [maxCapacity]
            norm_num at this
            omega
          · -- A positive multiple of the threshold is not below the threshold.
            exfalso
            simp only [reserveThreshold] at *
            nlinarith
        · simp only [ht, if_false]
          -- Additive branch: f is a positive multiple of the threshold.
          have hmul : ∃ m : Int, 1 ≤ m ∧ f = m * reserveThreshold := by
            rcases hg with ⟨k, hk, rfl⟩ | h
            · have hk17 : k = 17 := by
                by_contra hne
                have hklt : k < 17 := by omega
                have : (2 : Int) ^ k < 2 ^ 17 :=
                  pow_lt_pow_right₀ (by norm_num) hklt
                simp only [reserveThreshold] at ht
                norm_num at this
                omega
              exact ⟨1, le_refl 1, by subst hk17; norm_num [reserveThreshold]⟩
            · exact h
          rcases hmul with ⟨m, hm, rfl⟩
          have hmle : m ≤ 4095 := by
            simp only [reserveThreshold] at hc
            simp only [maxCapacity] at hcap
            nlinarith
          refine ih (m * reserveThreshold + reserveThreshold)
            (by simp only [reserveThreshold]; nlinarith)
            (Or.inr ⟨m + 1, by omega, by ring⟩) ?_
          simp only [reserveThreshold, maxCapacity]
          nlinarith
      · simp only [hc, if_false]
        exact ⟨hg, hle⟩

/-- The final grown capacity exceeds the requested capacity. -/
theorem growFinal_gt (capacity : Int) (h : 1 ≤ capacity) :
    capacity < growFinal capacity := by
  exact growGoAux_gt_capacity capacity capacity.toNat 1 (by norm_num) (by omega)

/-- The final grown capacity never exceeds MAX_CAPACITY when the requested
capacity is accepted by the reserve_object guard. -/
theorem growFinal_le (capacity : Int) (h2 : capacity < maxCapacity) :
    growFinal capacity ≤ maxCapacity ∧ goodCap (growFinal capacity) := by
  have := growGoAux_good_le capacity h2 capacity.toNat 1 (by norm_num) goodCap_one
    (by simp [maxCapacity])
  exact ⟨this.2, this.1⟩

/-- A successful reserve_object call yields a capacity at least the request
and at least the previous capacity. -/
theorem reserveCapLen_ok (cap len c cap2 len2 : Int)
    (h : reserveCapLen cap len c = .ok (cap2, len2)) : c ≤ cap2 ∧ cap ≤ cap2 := by
  unfold reserveCapLen at h
  by_cases hg : 0 < c ∧ c < maxCapacity
  · rw [if_neg (by simpa using hg)] at h
    by_cases hle : c ≤ cap
    · rw [if_pos hle] at h
      simp only [Except.ok.injEq, Prod.mk.injEq] at h
      obtain ⟨rfl, rfl⟩ := h
      omega
    · rw [if_neg hle] at h
      unfold resizeCapLen at h
      by_cases hg2 : 0 < growFinal c ∧ growFinal c ≤ maxCapacity
      · rw [if_neg (by simpa using hg2)] at h
        simp only [Except.ok.injEq, Prod.mk.injEq] at h
        obtain ⟨rfl, -⟩ := h
        have hgt : c < growFinal c := growFinal_gt c (by omega)
        omega
      · rw [if_pos (by simpa using hg2)] at h
        exact absurd h (by simp)
  · rw [if_pos (by simpa using hg)] at h
    exact absurd h (by simp)

/-- C5: for requested capacities c1 ≤ c2, a reserve after a reserve never
decreases the capacity, and after any successful reserve the capacity is at
least the request (pl_gc.c reserve_object, lines 158-183). -/
theorem reserve_capacity_monotone :
    (∀ cap len c1 c2 cap1 len1 cap2 len2 : Int,
       c1 ≤ c2 →
       reserveCapLen cap len c1 = .ok (cap1, len1) →
       reserveCapLen cap1 len1 c2 = .ok (cap2, len2) →
       cap1 ≤ cap2) ∧
    (∀ cap len c cap2 len2 : Int,
       reserveCapLen cap len c = .ok (cap2, len2) → c ≤ cap2 ∧ cap ≤ cap2) := by
  constructor
  · intro cap len c1 c2 cap1 len1 cap2 len2 _ h1 h2
    exact (reserveCapLen_ok cap1 len1 c2 cap2 len2 h2).2
  · intro cap len c cap2 len2 h
    exact reserveCapLen_ok cap len c cap2 len2 h

/-- Witness for C5 at concrete inputs: reserve to 3 grows capacity 1 to 4,
then reserve to 5 grows capacity 4 to 8. -/
theorem reserve_capacity_monotone_witness :
    (4 : Int) ≤ 8 ∧ ((3 : Int) ≤ 4 ∧ (1 : Int) ≤ 4) :=
  ⟨reserve_capacity_monotone.1 1 0 3 5 4 0 8 0 (by norm_num) (by rfl) (by rfl),
   reserve_capacity_monotone.2 1 0 3 4 0 (by rfl)⟩

/-- C6 counterexample: the claim fails on the code in two ways.  First,
reserve_object guards the request with a strict bound, so the requested
capacity MAX_CAPACITY itself is rejected with INVALID_CAPACITY, contradicting
that every c in (0, MAX_CAPACITY] is accepted.  Second, the code threshold is
2 << 16 = 2^17 = 131072, not 2^(bits_per_int/2) = 2^16, so for the request
150000 the code computes 262144 while the policy worded in the spec computes
196608. -/
theorem reserve_growth_policy_counterexample :
    reserveCapLen 1 0 maxCapacity = .error .invalidCapacity ∧
    growFinal 150000 = 262144 ∧ specGrowFinal 150000 = 196608 :=
  ⟨by rfl, by decide, by decide⟩

/-- C6 amended: when reserve_object must grow (request beyond the current
capacity), the new capacity starts from 1, doubles while below the threshold
2 << 16 = 2^17, then grows additively by that threshold; there is no explicit
clamp, but the result never exceeds MAX_CAPACITY (it is a power of two at
most 2^17 or a multiple of 2^17 at most 2^29 = MAX_CAPACITY); every requested
capacity in (0, MAX_CAPACITY) exclusive is accepted. -/
theorem reserve_growth_policy_amended :
    ∀ cap len c : Int, 0 < c → c < maxCapacity → len ≤ cap →
      (c ≤ cap → reserveCapLen cap len c = .ok (cap, len)) ∧
      (cap < c →
        reserveCapLen cap len c = .ok (growFinal c, len) ∧
        c < growFinal c ∧ growFinal c ≤ maxCapacity ∧ goodCap (growFinal c)) := by
  intro cap len c hc hmax hlen
  have hguard : ¬¬(0 < c ∧ c < maxCapacity) := by simp [hc, hmax]
  constructor
  · intro hle
    unfold reserveCapLen
    simp only [hguard, if_false]
    simp [hle]
  · intro hgt
    have hg1 : c < growFinal c := growFinal_gt c (by omega)
    have hg2 := growFinal_le c hmax
    refine ⟨?_, hg1, hg2.1, hg2.2⟩
    unfold reserveCapLen resizeCapLen
    simp only [hguard, if_false]
    have hnle : ¬ c ≤ cap := by omega
    simp only [hnle, if_false]
    have hok : ¬¬(0 < growFinal c ∧ growFinal c ≤ maxCapacity) := by
      simp only [not_not]
      exact ⟨by omega, hg2.1⟩
    simp only [hok, if_false]
    have : ¬ growFinal c < len := by omega
    simp [this]

/-- Witness for C6 amended at concrete inputs: reserve to 3 from capacity 1
grows the capacity to growFinal 3 = 4. -/
theorem reserve_growth_policy_amended_witness :
    reserveCapLen 1 0 3 = .ok (growFinal 3, 0) ∧
    (3 : Int) < growFinal 3 ∧ growFinal 3 ≤ maxCapacity ∧ goodCap (growFinal 3) :=
  (reserve_growth_policy_amended 1 0 3 (by norm_num) (by norm_num [maxCapacity])
    (by norm_num)).2 (by norm_num)

/-- An AND-accumulating fold that starts from false stays false. -/
theorem foldl_and_false {β : Type} (l : List β) (p : β → Bool) :
    l.foldl (fun f j => f && p j) false = false := by
  induction l with
  | nil => rfl
  | cons a l ih => simpa using ih

/-- The attribute scan loop never returns an index: its flag accumulator
starts at 0 and is combined with &&, so it can never become 1. -/
theorem attrIndexGo_eq_neg_one (names : List (List Int)) (given : List Int) :
    ∀ i : Int, attrIndexGo names given i = -1 := by
  induction names with
  | nil => intro i; rfl
  | cons stored rest ih =>
      intro i
      unfold attrIndexGo
      by_cases h : stored.length = given.length
      · simp only [h, if_true, foldl_and_false]
        simpa using ih (i + 1)
      · simpa [h] using ih (i + 1)

/-- Attribute name lookup always fails. -/
theorem primitive_index_attribute_neg (attr : Option AttrTab) (given : List Int) :
    primitive_index_attribute attr given = -1 := by
  cases attr with
  | none => rfl
  | some t => exact attrIndexGo_eq_neg_one t.names given 0

/-- C3: the claim fails on the code.  Attribute name lookup can never find
a stored name, because primitive_index_attribute initializes its comparison
flag to 0 and accumulates it with &&, so the flag never reaches 1.  After a
successful attribute.set storing name [97] with value 5, attribute.has
returns the length-one int vector [0] rather than [1], and attribute.get
raises ATTRIBUTE_NOT_FOUND rather than returning the stored value. -/
theorem attribute_set_then_lookup_fails :
    (∀ (attr : Option AttrTab) (given : List Int),
        primitive_index_attribute attr given = -1) ∧
    set_attribute none [97] (some 5) = (.ok (), some ⟨[[97]], [some 5]⟩) ∧
    has_attribute (some ⟨[[97]], [some 5]⟩) [97] = .vint [0] ∧
    get_attribute (some ⟨[[97]], [some 5]⟩) [97] = .error .attributeNotFound := by
  refine ⟨primitive_index_attribute_neg, ?_, ?_, ?_⟩
  · rfl
  · simp [has_attribute, primitive_index_attribute_neg]
  · simp [get_attribute, primitive_index_attribute_neg]

/-- C4: if, during attribute.set for a new name, appending to the value
list fails after appending to the name list succeeded, the error is
rethrown and both parallel lists are restored to the pre-call length. -/
theorem set_attribute_value_append_rollback :
    ∀ (attr : Option AttrTab) (given : List Int) (item : Option Nat)
      (e : PlErr) (ns : List (List Int)),
      (attr.getD ⟨[], []⟩).names.length = (attr.getD ⟨[], []⟩).values.length →
      appendObj (attr.getD ⟨[], []⟩).names given (fun _ => false) = .ok ns →
      appendObj (attr.getD ⟨[], []⟩).values item (fun v => v = none) = .error e →
      ∃ t' : AttrTab,
        set_attribute attr given item = (.error e, some t') ∧
        t'.names.length = t'.values.length ∧
        t'.names.length = (attr.getD ⟨[], []⟩).values.length := by
  intro attr given item e ns hlen hname hvalue
  have hns : ns = (attr.getD ⟨[], []⟩).names ++ [given] := by
    unfold appendObj at hname
    split_ifs at hname with h1 h2
    all_goals simp only [Except.ok.injEq] at hname
    all_goals exact hname.symm
  unfold set_attribute
  rw [primitive_index_attribute_neg]
  simp only [if_pos rfl, hname, hvalue]
  set t := attr.getD (⟨[], []⟩ : AttrTab) with ht
  have hnslen : ns.length = t.names.length + 1 := by
    rw [hns]; simp
  have hne : ns.length ≠ t.values.length := by omega
  refine ⟨⟨ns.take (min ns.length t.values.length),
           t.values.take (min ns.length t.values.length)⟩, ?_, ?_, ?_⟩
  · simp [hne]
  · simp only [List.length_take]
    omega
  · simp only [List.length_take]
    omega

/-- Witness for C4 at concrete inputs: with one stored pair, setting a new
name with a NULL value fails appending the value after the name append
succeeded (append raises UNEXPECTED_NULL_POINTER on the NULL item), and
both lists come back to length 1. -/
theorem set_attribute_value_append_rollback_witness :
    ∃ t' : AttrTab,
      set_attribute (some ⟨[[97]], [some 5]⟩) [98] none =
        (.error .unexpectedNullPointer, some t') ∧
      t'.names.length = t'.values.length ∧
      t'.names.length = ((some (⟨[[97]], [some 5]⟩ : AttrTab)).getD
        ⟨[], []⟩).values.length :=
  set_attribute_value_append_rollback (some ⟨[[97]], [some 5]⟩) [98] none
    .unexpectedNullPointer [[97], [98]] (by rfl) (by rfl) (by rfl)

/-- A write loop that skips every index leaves the data unchanged. -/
theorem setArr_skip_all {α : Type} (data : List α) (len : Int)
    (indices : List Int) (src : List α) (junk : α)
    (h : ∀ i < len.toNat, indices.getD i 0 = intNA) :
    setArr data len indices src junk = data := by
  unfold setArr
  have hgen : ∀ (l : List Nat) (d : List α),
      (∀ i ∈ l, indices.getD i 0 = intNA) →
      l.foldl (fun d i =>
        let idx := indices.getD i 0
        if idx = intNA then d else d.set idx.toNat (src.getD i junk)) d = d := by
    intro l
    induction l with
    | nil => intro d _; rfl
    | cons a l ih =>
        intro d hall
        simp only [List.foldl_cons]
        rw [if_pos (hall a (by simp))]
        exact ih d (fun i hi => hall i (by simp [hi]))
  exact hgen _ data (fun i hi => h i (List.mem_range.mp hi))

/-- C7: a set call whose index vector contains any out-of-range, non-missing
index raises INDEX_OUT_OF_BOUND and leaves the vector unchanged (all index
guards run before the first write), while missing indices are skipped
without error (an all-missing index vector leaves the vector unchanged and
succeeds). -/
theorem set_guard_before_mutate :
    (∀ (x : PlVec) (indices : List Int) (items : PlVec) (j : JunkVals) (k : Int),
       plClass x = plClass items →
       (indices.length : Int) ≠ intNA →
       k ∈ indices → k ≠ intNA → (k < 0 ∨ plvLen x ≤ k) →
       setVec x indices items j = .error .indexOutOfBound) ∧
    (∀ (x : PlVec) (indices : List Int) (items : PlVec) (j : JunkVals),
       plClass x = plClass items →
       (indices.length : Int) ≠ intNA →
       (∀ k ∈ indices, k = intNA) →
       setVec x indices items j = .ok x) := by
  constructor
  · intro x indices items j k hcls hlen hmem hkna hkout
    unfold setVec
    rw [if_neg (by simp [hcls])]
    unfold primitive_set_by_indices
    rw [if_neg hlen]
    have hne : indices ≠ [] := by rintro rfl; simp at hmem
    have hpos : 0 < (indices.length : Int) := by
      have := List.length_pos.mpr hne
      omega
    rw [if_neg (by omega), if_neg (by omega)]
    rw [if_pos ?_]
    intro hall
    obtain ⟨n, hn, rfl⟩ := List.getElem_of_mem hmem
    have := hall n (by simpa using hn)
    rw [List.getD_eq_getElem indices 0 hn] at this
    rcases this with h1 | h2
    · exact hkna h1
    · omega
  · intro x indices items j hcls hlen hallna
    unfold setVec
    rw [if_neg (by simp [hcls])]
    unfold primitive_set_by_indices
    rw [if_neg hlen]
    by_cases hz : (indices.length : Int) = 0
    · rw [if_pos hz]
    · rw [if_neg hz, if_neg (by omega)]
      have hok : allIndicesInBound (plvLen x) (indices.length : Int) indices := by
        intro i hi
        left
        have hilt : i < indices.length := by omega
        rw [List.getD_eq_getElem indices 0 hilt]
        exact hallna _ (List.getElem_mem hilt)
      rw [if_neg (by simpa using hok)]
      have hskip : ∀ i < ((indices.length : Int)).toNat, indices.getD i 0 = intNA := by
        intro i hi
        have hilt : i < indices.length := by omega
        rw [List.getD_eq_getElem indices 0 hilt]
        exact hallna _ (List.getElem_mem hilt)
      have hsaI : ∀ (data src : List Int) (junk : Int),
          setArr data (indices.length : Int) indices src junk = data :=
        fun data src junk => setArr_skip_all data _ indices src junk hskip
      have hsaD : ∀ (data src : List (Option Rat)) (junk : Option Rat),
          setArr data (indices.length : Int) indices src junk = data :=
        fun data src junk => setArr_skip_all data _ indices src junk hskip
      have hsaO : ∀ (data src : List (Option Nat)) (junk : Option Nat),
          setArr data (indices.length : Int) indices src junk = data :=
        fun data src junk => setArr_skip_all data _ indices src junk hskip
      cases x <;> cases items <;> simp [hsaI, hsaD, hsaO]

/-- Witness for C7 at concrete inputs: setting index 5 on a length-two int
vector fails with INDEX_OUT_OF_BOUND, and setting with an all-missing index
vector succeeds and changes nothing. -/
theorem set_guard_before_mutate_witness :
    setVec (.vint [1, 2]) [5] (.vint [9]) ⟨0, 0, 0, none, none⟩ =
      .error .indexOutOfBound ∧
    setVec (.vint [1, 2]) [intNA] (.vint [9]) ⟨0, 0, 0, none, none⟩ =
      .ok (.vint [1, 2]) :=
  ⟨set_guard_before_mutate.1 (.vint [1, 2]) [5] (.vint [9]) ⟨0, 0, 0, none, none⟩ 5
     (by rfl) (by decide) (by simp) (by decide) (by right; decide),
   set_guard_before_mutate.2 (.vint [1, 2]) [intNA] (.vint [9]) ⟨0, 0, 0, none, none⟩
     (by rfl) (by decide) (by simp)⟩

/-- A nonempty list within the capacity bound passes the allocator guard
used by the conversion functions and copy. -/
theorem conv_guard_pass {α : Type} (xs : List α) (hne : xs ≠ [])
    (hle : (xs.length : Int) ≤ maxCapacity) :
    ¬¬(0 < (xs.length : Int) ∧ (xs.length : Int) ≤ maxCapacity) := by
  have := List.length_pos.mpr hne
  simp only [not_not]
  exact ⟨by exact_mod_cast this, hle⟩

/-- C9: NA propagation.  For every primitive class, extract with the int
missing sentinel as the index returns that class missing sentinel without
raising an index error (even on an empty vector), and each of the four
conversions maps elementwise, sending the source class missing sentinel to
the destination class missing sentinel. -/
theorem na_propagation :
    (∀ xs : List Int, primitive_extract_char (.vchar xs) intNA = .ok charNA) ∧
    (∀ xs : List Int, primitive_extract_int (.vint xs) intNA = .ok intNA) ∧
    (∀ xs : List Int, primitive_extract_long (.vlong xs) intNA = .ok longNA) ∧
    (∀ xs : List (Option Rat), primitive_extract_double (.vdouble xs) intNA = .ok none) ∧
    (∀ xs : List (Option Nat), primitive_extract_object (.vlist xs) intNA = .ok none) ∧
    (charToCharElem charNA = charNA ∧ intToCharElem intNA = charNA ∧
     longToCharElem longNA = charNA ∧ doubleToCharElem none = charNA) ∧
    (charToIntElem charNA = intNA ∧ intToIntElem intNA = intNA ∧
     longToIntElem longNA = intNA ∧ doubleToIntElem none = intNA) ∧
    (charToLongElem charNA = longNA ∧ intToLongElem intNA = longNA ∧
     longToLongElem longNA = longNA ∧ doubleToLongElem none = longNA) ∧
    (charToDoubleElem charNA = none ∧ intToDoubleElem intNA = none ∧
     longToDoubleElem longNA = none ∧ doubleToDoubleElem none = none) ∧
    (∀ xs : List Int, xs ≠ [] → (xs.length : Int) ≤ maxCapacity →
       as_char (.vchar xs) = .ok (.vchar (xs.map charToCharElem)) ∧
       as_int (.vchar xs) = .ok (.vint (xs.map charToIntElem)) ∧
       as_long (.vchar xs) = .ok (.vlong (xs.map charToLongElem)) ∧
       as_double (.vchar xs) = .ok (.vdouble (xs.map charToDoubleElem))) ∧
    (∀ xs : List Int, xs ≠ [] → (xs.length : Int) ≤ maxCapacity →
       as_char (.vint xs) = .ok (.vchar (xs.map intToCharElem)) ∧
       as_int (.vint xs) = .ok (.vint (xs.map intToIntElem)) ∧
       as_long (.vint xs) = .ok (.vlong (xs.map intToLongElem)) ∧
       as_double (.vint xs) = .ok (.vdouble (xs.map intToDoubleElem))) ∧
    (∀ xs : List Int, xs ≠ [] → (xs.length : Int) ≤ maxCapacity →
       as_char (.vlong xs) = .ok (.vchar (xs.map longToCharElem)) ∧
       as_int (.vlong xs) = .ok (.vint (xs.map longToIntElem)) ∧
       as_long (.vlong xs) = .ok (.vlong (xs.map longToLongElem)) ∧
       as_double (.vlong xs) = .ok (.vdouble (xs.map longToDoubleElem))) ∧
    (∀ xs : List (Option Rat), xs ≠ [] → (xs.length : Int) ≤ maxCapacity →
       as_char (.vdouble xs) = .ok (.vchar (xs.map doubleToCharElem)) ∧
       as_int (.vdouble xs) = .ok (.vint (xs.map doubleToIntElem)) ∧
       as_long (.vdouble xs) = .ok (.vlong (xs.map doubleToLongElem)) ∧
       as_double (.vdouble xs) = .ok (.vdouble (xs.map doubleToDoubleElem))) := by
  refine ⟨?_, ?_, ?_, ?_, ?_, ?_, ?_, ?_, ?_, ?_, ?_, ?_, ?_⟩
  · intro xs; simp [primitive_extract_char]
  · intro xs; simp [primitive_extract_int]
  · intro xs; simp [primitive_extract_long]
  · intro xs; simp [primitive_extract_double]
  · intro xs; simp [primitive_extract_object]
  · exact ⟨by decide, by decide, by decide, by decide⟩
  · exact ⟨by decide, by decide, by decide, by decide⟩
  · exact ⟨by decide, by decide, by decide, by decide⟩
  · exact ⟨by decide, by decide, by decide, by decide⟩
  all_goals
    intro xs hne hle
    refine ⟨?_, ?_, ?_, ?_⟩ <;>
      · simp only [as_char, as_int, as_long, as_double, plvLen]
        rw [if_neg (conv_guard_pass xs hne hle)]

/-- Witness for C9 at concrete inputs: each conversion applied to a
singleton vector holding the source missing sentinel. -/
theorem na_propagation_witness :
    (as_char (.vint [intNA]) = .ok (.vchar ([intNA].map intToCharElem)) ∧
     as_int (.vint [intNA]) = .ok (.vint ([intNA].map intToIntElem)) ∧
     as_long (.vint [intNA]) = .ok (.vlong ([intNA].map intToLongElem)) ∧
     as_double (.vint [intNA]) = .ok (.vdouble ([intNA].map intToDoubleElem))) ∧
    (as_char (.vchar [charNA]) = .ok (.vchar ([charNA].map charToCharElem)) ∧
     as_int (.vchar [charNA]) = .ok (.vint ([charNA].map charToIntElem)) ∧
     as_long (.vchar [charNA]) = .ok (.vlong ([charNA].map charToLongElem)) ∧
     as_double (.vchar [charNA]) = .ok (.vdouble ([charNA].map charToDoubleElem))) ∧
    (as_char (.vlong [longNA]) = .ok (.vchar ([longNA].map longToCharElem)) ∧
     as_int (.vlong [longNA]) = .ok (.vint ([longNA].map longToIntElem)) ∧
     as_long (.vlong [longNA]) = .ok (.vlong ([longNA].map longToLongElem)) ∧
     as_double (.vlong [longNA]) = .ok (.vdouble ([longNA].map longToDoubleElem))) ∧
    (as_char (.vdouble [none]) = .ok (.vchar ([none].map doubleToCharElem)) ∧
     as_int (.vdouble [none]) = .ok (.vint ([none].map doubleToIntElem)) ∧
     as_long (.vdouble [none]) = .ok (.vlong ([none].map doubleToLongElem)) ∧
     as_double (.vdouble [none]) = .ok (.vdouble ([none].map doubleToDoubleElem))) :=
  have h := na_propagation
  ⟨h.2.2.2.2.2.2.2.2.2.2.1 [intNA] (by simp) (by norm_num [maxCapacity]),
   h.2.2.2.2.2.2.2.2.2.1 [charNA] (by simp) (by norm_num [maxCapacity]),
   h.2.2.2.2.2.2.2.2.2.2.2.1 [longNA] (by simp) (by norm_num [maxCapacity]),
   h.2.2.2.2.2.2.2.2.2.2.2.2 [none] (by simp) (by norm_num [maxCapacity])⟩

/-- C10: for a zero-length object, copy does not return a duplicate but
raises INVALID_CAPACITY, because the duplicate is allocated with capacity
x.length and the allocator rejects capacity 0; the four conversions fail
the same way. -/
theorem zero_length_copy_rejected :
    ∀ x : PlVec, plvLen x = 0 →
      copy x = .error .invalidCapacity ∧
      as_char x = .error .invalidCapacity ∧
      as_int x = .error .invalidCapacity ∧
      as_long x = .error .invalidCapacity ∧
      as_double x = .error .invalidCapacity := by
  intro x h
  unfold copy as_char as_int as_long as_double
  simp [h]

/-- Witness for C10 at a concrete input: the empty int vector. -/
theorem zero_length_copy_rejected_witness :
    copy (.vint []) = .error .invalidCapacity ∧
    as_char (.vint []) = .error .invalidCapacity ∧
    as_int (.vint []) = .error .invalidCapacity ∧
    as_long (.vint []) = .error .invalidCapacity ∧
    as_double (.vint []) = .error .invalidCapacity :=
  zero_length_copy_rejected (.vint []) (by rfl)

/-- C2: the claim fails on the code.  The length swap in equal assigns
y = x after x = y (the saved tmp is never used), so when the first operand
is the shorter one both operands become the original second operand and the
longer vector is compared with itself: equal(int_vector(1),
int_vector(1,2,3,1)) yields [1,1,1,1] for every junk value, instead of the
claimed [1,0,0,1].  In the direction the claim illustrates,
equal(int_vector(1,2,3,1), int_vector(1)) yields [1,0,0,1] when the memory
read past the length-one operand holds a non-missing junk value (the
broadcast branch NA-tests y[i] instead of y[0]), but yields
[1, NA, NA, NA] when that junk memory holds the int missing sentinel. -/
theorem equal_broadcast_swap_bug :
    (∀ j : JunkVals,
       equal j (.vint [1]) (.vint [1, 2, 3, 1]) = .ok (.vint [1, 1, 1, 1])) ∧
    equal ⟨0, 0, 0, none, none⟩ (.vint [1, 2, 3, 1]) (.vint [1]) =
      .ok (.vint [1, 0, 0, 1]) ∧
    equal ⟨0, intNA, 0, none, none⟩ (.vint [1, 2, 3, 1]) (.vint [1]) =
      .ok (.vint [1, intNA, intNA, intNA]) := by
  refine ⟨?_, by rfl, by rfl⟩
  intro j
  rfl

/-- C1: the claim fails on the code.  With L = list(A) pinned, collect
keeps both L and A (as the claim says); but after unpinning L, leaving the
directly-reachable set empty, the second collect frees nothing: both L and
A are still in the heap and the allocation table still holds both, because
update_reachable returns early when the root set is empty (pl_gc.c
390-392) and the sweep then tests against the previous cycle reachable
set, which still contains L and A. -/
theorem gc_unpin_then_collect_frees_nothing :
    (garbage_collect c1State).1 = .ok () ∧
    c1AfterFirst.heap = [(10, c1A), (20, c1L)] ∧
    c1AfterFirst.table = some ⟨2, [10, 20]⟩ ∧
    c1AfterFirst.reachable = some ⟨4, [10, 20]⟩ ∧
    (directly_unreachable 20 c1AfterFirst).1 = .ok () ∧
    c1AfterUnpin.directly = some ⟨8, []⟩ ∧
    (garbage_collect c1AfterUnpin).1 = .ok () ∧
    c1Final.heap = [(10, c1A), (20, c1L)] ∧
    c1Final.table = some ⟨2, [10, 20]⟩ := by
  refine ⟨?_, ?_, ?_, ?_, ?_, ?_, ?_, ?_, ?_⟩ <;> rfl

/-- Running a bind: definitional unfolding of the GcM monad. -/
theorem run_bind {α β : Type} (m : GcM α) (f : α → GcM β) (s : GCState) :
    (m >>= f) s = match m s with
      | (.ok a, s2) => f a s2
      | (.error e, s2) => (.error e, s2) := rfl

/-- Running pure. -/
theorem run_pure {α : Type} (a : α) (s : GCState) :
    (pure a : GcM α) s = (.ok a, s) := rfl

/-- A getD read is either a member of the list or the default. -/
theorem getD_mem_or_default {α : Type} (l : List α) (n : Nat) (d : α) :
    l.getD n d ∈ l ∨ l.getD n d = d := by
  induction l generalizing n with
  | nil => right; simp [List.getD]
  | cons a t ih =>
      cases n with
      | zero => left; simp [List.getD_cons_zero]
      | succ m =>
          rw [List.getD_cons_succ]
          rcases ih m with h | h
          · exact Or.inl (List.mem_cons_of_mem a h)
          · exact Or.inr h

/-- The find loop returns -1 whenever the sought address differs from
every table entry and from the out-of-range read default 0. -/
theorem tableFindGo_not_found (data : List Addr) (x : Addr)
    (hmem : ∀ v ∈ data, v ≠ x) (hx : x ≠ 0) :
    ∀ (fuel : Nat) (head tail : Int), tableFindGo data x fuel head tail = -1 := by
  intro fuel
  induction fuel with
  | zero => intro head tail; rfl
  | succ n ih =>
      intro head tail
      unfold tableFindGo
      by_cases hht : head ≤ tail
      · simp only [hht, if_true]
        set current := head / 2 + tail / 2 +
          (if tail % 2 = 1 ∧ head % 2 = 1 then 1 else 0) with hcur
        have hv : data.getD current.toNat 0 ≠ x := by
          rcases getD_mem_or_default data current.toNat 0 with h | h
          · exact hmem _ h
          · rw [h]; exact fun hc => hx hc.symm
        simp only [hv, if_false]
        by_cases hlt : data.getD current.toNat 0 < x
        · simp only [hlt, if_true, ih]
        · simp only [hlt, if_false, ih]
      · simp only [hht, if_false]

/-- The inserted element is a member of the insertion result. -/
theorem mem_listInsertAt {α : Type} :
    ∀ (l : List α) (n : Nat) (a : α), a ∈ listInsertAt l n a := by
  intro l
  induction l with
  | nil => intro n a; cases n <;> simp [listInsertAt]
  | cons b t ih =>
      intro n a
      cases n with
      | zero => simp [listInsertAt]
      | succ m => simp only [listInsertAt, List.mem_cons]; exact Or.inr (ih m a)

/-- Removing an address that no heap entry carries is a no-op. -/
theorem heap_filter_fresh (h : List (Addr × GObj)) (a : Addr)
    (hfresh : ∀ p ∈ h, p.1 ≠ a) :
    h.filter (fun p => decide (p.1 ≠ a)) = h := by
  induction h with
  | nil => rfl
  | cons p t ih =>
      simp only [List.filter_cons]
      rw [if_pos (by simpa using hfresh p (by simp))]
      rw [ih (fun q hq => hfresh q (by simp [hq]))]

/-- new_object on an invalid capacity: INVALID_CAPACITY with no state
change (the table is assumed already initialized). -/
theorem new_object_invalid_capacity (s : GCState) (t : Tab) (cls capacity : Int)
    (ht : s.table = some t) (h1 : 0 ≤ cls) (h2 : cls < numClass)
    (h3 : ¬(0 < capacity ∧ capacity ≤ maxCapacity)) :
    new_object cls capacity s = (.error .invalidCapacity, s) := by
  obtain ⟨tb, dr, re, un, hp, na, orc⟩ := s
  simp only at ht
  subst ht
  have hinit : init_table .table ⟨some t, dr, re, un, hp, na, orc⟩ =
      (.ok t, ⟨some t, dr, re, un, hp, na, orc⟩) := rfl
  have hwr : new_object_without_recording cls capacity
      ⟨some t, dr, re, un, hp, na, orc⟩ =
      (.error .invalidCapacity, ⟨some t, dr, re, un, hp, na, orc⟩) := by
    unfold new_object_without_recording
    rw [if_neg (not_not_intro ⟨h1, h2⟩), if_pos h3]
    rfl
  unfold new_object
  simp only [run_bind, hinit, hwr]

/-- Recording a fresh address in a table with spare capacity succeeds
without touching the rest of the state, and the address is a member of the
resulting table. -/
theorem table_record_fresh (t : Tab) (a : Addr) (s : GCState)
    (ha : a ≠ 0) (hfresh : ∀ b ∈ t.data, b < a)
    (hcap : (t.data.length : Int) < t.capacity)
    (hlen : (t.data.length : Int) + 1 < maxCapacity) :
    ∃ t2 : Tab, table_record_object t a s = (.ok t2, s) ∧ a ∈ t2.data := by
  have hfind : table_find_object t a = -1 := by
    unfold table_find_object
    exact tableFindGo_not_found t.data a
      (fun v hv => Nat.ne_of_lt (hfresh v hv)) ha _ _ _
  unfold table_record_object
  rw [if_neg ha, if_neg (by simp [hfind])]
  have hres : reserveTab t ((t.data.length : Int) + 1) s = (.ok t, s) := by
    unfold reserveTab
    rw [if_neg (not_not_intro ⟨by omega, hlen⟩), if_pos (by omega)]
    rfl
  simp only [run_bind, hres]
  by_cases hz : t.data.length = 0
  · refine ⟨{ t with data := [a] }, ?_, by simp⟩
    simp [hz, run_pure]
  · set hd := tableInsertGo t.data a t.data.length 0 ((t.data.length : Int) - 1) with hhd
    by_cases hap : hd = (t.data.length : Int)
    · refine ⟨{ t with data := t.data ++ [a] }, ?_, by simp⟩
      simp [hz, hap, run_pure]
    · refine ⟨{ t with data := listInsertAt t.data hd.toNat a }, ?_,
        mem_listInsertAt _ _ _⟩
      simp [hz, hap, run_pure]

/-- new_object on a valid class and capacity with every allocation
succeeding and spare room in the allocation table: returns a fresh address
carrying a length-0 object with a capacity-sized buffer, pushes it on the
heap, and records it in the allocation table. -/
theorem new_object_success (s : GCState) (t : Tab) (cls capacity : Int)
    (ht : s.table = some t) (ho : s.oracle = [])
    (h1 : 0 ≤ cls) (h2 : cls < numClass)
    (h3 : 0 < capacity) (h4 : capacity ≤ maxCapacity)
    (hna : 0 < s.nextAddr)
    (hfresh : ∀ b ∈ t.data, b < s.nextAddr)
    (hcap : (t.data.length : Int) < t.capacity)
    (hlen : (t.data.length : Int) + 1 < maxCapacity) :
    ∃ t2 : Tab,
      new_object cls capacity s =
        (.ok s.nextAddr,
         { s with
             heap := (s.nextAddr,
               ⟨cls, capacity, 0, none, List.replicate capacity.toNat none⟩) :: s.heap,
             nextAddr := s.nextAddr + 1,
             table := some t2 }) ∧
      s.nextAddr ∈ t2.data := by
  obtain ⟨tb, dr, re, un, hp, na, orc⟩ := s
  simp only at ht ho hna hfresh ⊢
  subst ht ho
  have hinit : init_table .table ⟨some t, dr, re, un, hp, na, []⟩ =
      (.ok t, ⟨some t, dr, re, un, hp, na, []⟩) := rfl
  have hwr : new_object_without_recording cls capacity
      ⟨some t, dr, re, un, hp, na, []⟩ =
      (.ok na, ⟨some t, dr, re, un,
        (na, ⟨cls, capacity, 0, none, List.replicate capacity.toNat none⟩) :: hp,
        na + 1, []⟩) := by
    unfold new_object_without_recording
    rw [if_neg (not_not_intro ⟨h1, h2⟩), if_neg (not_not_intro ⟨h3, h4⟩)]
    rfl
  obtain ⟨t2, hrec, hmem⟩ := table_record_fresh t na
    ⟨some t, dr, re, un,
      (na, ⟨cls, capacity, 0, none, List.replicate capacity.toNat none⟩) :: hp,
      na + 1, []⟩ (Nat.not_eq_zero_of_lt hna) hfresh hcap hlen
  refine ⟨t2, ?_, hmem⟩
  unfold new_object
  simp only [run_bind, hinit, hwr, gcatch, hrec, writeTab, getState, setState,
    setTabField, run_pure]

/-- new_object when the allocation table is full and the realloc that
would grow it fails: the freshly created object and its buffer are
released, the table is untouched, and ALLOC_FAIL propagates.  The oracle
[true, true, false] makes the two object mallocs succeed and the table
realloc fail. -/
theorem new_object_record_fail (s : GCState) (t : Tab) (cls capacity : Int)
    (ht : s.table = some t) (ho : s.oracle = [true, true, false])
    (h1 : 0 ≤ cls) (h2 : cls < numClass)
    (h3 : 0 < capacity) (h4 : capacity ≤ maxCapacity)
    (hna : 0 < s.nextAddr)
    (hfresh : ∀ b ∈ t.data, b < s.nextAddr)
    (hheap : ∀ p ∈ s.heap, p.1 < s.nextAddr)
    (hcap : t.capacity ≤ (t.data.length : Int))
    (hlen : (t.data.length : Int) + 1 < maxCapacity) :
    new_object cls capacity s =
      (.error .allocFail, { s with nextAddr := s.nextAddr + 1, oracle := [] }) := by
  obtain ⟨tb, dr, re, un, hp, na, orc⟩ := s
  simp only at ht ho hna hfresh hheap ⊢
  subst ht ho
  have hinit : init_table .table ⟨some t, dr, re, un, hp, na, [true, true, false]⟩ =
      (.ok t, ⟨some t, dr, re, un, hp, na, [true, true, false]⟩) := rfl
  have hwr : new_object_without_recording cls capacity
      ⟨some t, dr, re, un, hp, na, [true, true, false]⟩ =
      (.ok na, ⟨some t, dr, re, un,
        (na, ⟨cls, capacity, 0, none, List.replicate capacity.toNat none⟩) :: hp,
        na + 1, [false]⟩) := by
    unfold new_object_without_recording
    rw [if_neg (not_not_intro ⟨h1, h2⟩), if_neg (not_not_intro ⟨h3, h4⟩)]
    rfl
  have hfind : table_find_object t na = -1 := by
    unfold table_find_object
    exact tableFindGo_not_found t.data na
      (fun v hv => Nat.ne_of_lt (hfresh v hv)) (Nat.not_eq_zero_of_lt hna) _ _ _
  have hgt : (t.data.length : Int) + 1 < growFinal ((t.data.length : Int) + 1) :=
    growFinal_gt _ (by omega)
  have hle := growFinal_le ((t.data.length : Int) + 1) hlen
  have hrec : table_record_object t na
      ⟨some t, dr, re, un,
        (na, ⟨cls, capacity, 0, none, List.replicate capacity.toNat none⟩) :: hp,
        na + 1, [false]⟩ =
      (.error .allocFail,
       ⟨some t, dr, re, un,
        (na, ⟨cls, capacity, 0, none, List.replicate capacity.toNat none⟩) :: hp,
        na + 1, []⟩) := by
    unfold table_record_object
    rw [if_neg (Nat.not_eq_zero_of_lt hna), if_neg (by simp [hfind])]
    have hres : reserveTab t ((t.data.length : Int) + 1)
        ⟨some t, dr, re, un,
          (na, ⟨cls, capacity, 0, none, List.replicate capacity.toNat none⟩) :: hp,
          na + 1, [false]⟩ =
        (.error .allocFail,
         ⟨some t, dr, re, un,
          (na, ⟨cls, capacity, 0, none, List.replicate capacity.toNat none⟩) :: hp,
          na + 1, []⟩) := by
      unfold reserveTab resizeTab
      rw [if_neg (not_not_intro ⟨by omega, hlen⟩), if_neg (by omega),
        if_neg (not_not_intro ⟨by omega, hle.1⟩)]
      rfl
    simp only [run_bind, hres]
  have hdel : ((na, (⟨cls, capacity, 0, none,
      List.replicate capacity.toNat none⟩ : GObj)) :: hp).filter
        (fun p => decide (p.1 ≠ na)) = hp := by
    rw [List.filter_cons]
    rw [if_neg (by simp)]
    exact heap_filter_fresh hp na (fun p hp2 => Nat.ne_of_lt (hheap p hp2))
  unfold new_object
  simp only [run_bind, hinit, hwr, gcatch, hrec, delete_object, getState,
    setState, run_bind, gthrow]
  rw [if_neg (Nat.not_eq_zero_of_lt hna)]
  simp only [run_bind, getState, setState, hdel, gthrow]

/-- C8: the allocate contract.  With the allocation table initialized:
a capacity outside (0, MAX_CAPACITY] raises INVALID_CAPACITY with no state
change; on success the returned fresh object has length 0, its own
capacity-sized buffer, is pushed on the heap and recorded in the
allocation table; and when recording fails (table full, growth realloc
fails), the object and its buffer are released and ALLOC_FAIL propagates
with the heap restored and the table unchanged. -/
theorem allocate_contract :
    (∀ (s : GCState) (t : Tab) (cls capacity : Int),
       s.table = some t → 0 ≤ cls → cls < numClass →
       ¬(0 < capacity ∧ capacity ≤ maxCapacity) →
       new_object cls capacity s = (.error .invalidCapacity, s)) ∧
    (∀ (s : GCState) (t : Tab) (cls capacity : Int),
       s.table = some t → s.oracle = [] →
       0 ≤ cls → cls < numClass → 0 < capacity → capacity ≤ maxCapacity →
       0 < s.nextAddr →
       (∀ b ∈ t.data, b < s.nextAddr) →
       (t.data.length : Int) < t.capacity →
       (t.data.length : Int) + 1 < maxCapacity →
       ∃ t2 : Tab,
         new_object cls capacity s =
           (.ok s.nextAddr,
            { s with
                heap := (s.nextAddr,
                  ⟨cls, capacity, 0, none, List.replicate capacity.toNat none⟩) :: s.heap,
                nextAddr := s.nextAddr + 1,
                table := some t2 }) ∧
         s.nextAddr ∈ t2.data) ∧
    (∀ (s : GCState) (t : Tab) (cls capacity : Int),
       s.table = some t → s.oracle = [true, true, false] →
       0 ≤ cls → cls < numClass → 0 < capacity → capacity ≤ maxCapacity →
       0 < s.nextAddr →
       (∀ b ∈ t.data, b < s.nextAddr) →
       (∀ p ∈ s.heap, p.1 < s.nextAddr) →
       t.capacity ≤ (t.data.length : Int) →
       (t.data.length : Int) + 1 < maxCapacity →
       new_object cls capacity s =
         (.error .allocFail, { s with nextAddr := s.nextAddr + 1, oracle := [] })) :=
  ⟨new_object_invalid_capacity, new_object_success, new_object_record_fail⟩

/-- Witness for C8 at concrete inputs: a state with an empty initialized
table accepts a new int object of capacity 4 at address 1 and rejects
capacity 0; a state whose table is full (capacity 1, one entry) with a
failing realloc propagates ALLOC_FAIL and restores the heap. -/
theorem allocate_contract_witness :
    new_object 1 0 ⟨some ⟨8, []⟩, none, none, none, [], 1, []⟩ =
      (.error .invalidCapacity, ⟨some ⟨8, []⟩, none, none, none, [], 1, []⟩) ∧
    (∃ t2 : Tab,
       new_object 1 4 ⟨some ⟨8, []⟩, none, none, none, [], 1, []⟩ =
         (.ok 1,
          { (⟨some ⟨8, []⟩, none, none, none, [], 1, []⟩ : GCState) with
              heap := (1, ⟨1, 4, 0, none, List.replicate (4 : Int).toNat none⟩) :: [],
              nextAddr := 1 + 1,
              table := some t2 }) ∧
       1 ∈ t2.data) ∧
    new_object 1 4 ⟨some ⟨1, [1]⟩, none, none, none, [], 2, [true, true, false]⟩ =
      (.error .allocFail,
       { (⟨some ⟨1, [1]⟩, none, none, none, [], 2, [true, true, false]⟩ : GCState) with
           nextAddr := 2 + 1, oracle := [] }) :=
  ⟨allocate_contract.1 ⟨some ⟨8, []⟩, none, none, none, [], 1, []⟩ ⟨8, []⟩ 1 0
     rfl (by norm_num) (by norm_num [numClass]) (by norm_num),
   allocate_contract.2.1 ⟨some ⟨8, []⟩, none, none, none, [], 1, []⟩ ⟨8, []⟩ 1 4
     rfl rfl (by norm_num) (by norm_num [numClass]) (by norm_num)
     (by norm_num [maxCapacity]) (by norm_num) (by simp) (by norm_num)
     (by norm_num [maxCapacity]),
   allocate_contract.2.2 ⟨some ⟨1, [1]⟩, none, none, none, [], 2, [true, true, false]⟩
     ⟨1, [1]⟩ 1 4 rfl rfl (by norm_num) (by norm_num [numClass]) (by norm_num)
     (by norm_num [maxCapacity]) (by norm_num) (by decide) (by simp) (by norm_num)
     (by norm_num [maxCapacity])⟩
